import Mathlib

/-!
Shallow embedding of the nexum mesh synchronization core
(`app/services/sync_service.py`, `app/services/location_service.py`,
`app/models/location.py`, `app/routes/sync_routes.py`) and proofs about it.

Conventions of the embedding:
* SQLite tables become Lean lists of rows; a `SELECT ... WHERE` becomes
  `List.filter` and `ORDER BY created_at ASC` becomes `List.mergeSort`.
* Timestamps (UTC milliseconds, Python unbounded ints) are `Int`.
* float64 coordinates are modelled as exact rationals (`Rat`); no claim
  involves floating-point rounding, the sync layer only carries them.
* Wall-clock reads (`datetime.now(...)`) are passed in as a `now_ms` parameter.
* The network is an oracle `net : String → Int → NetResponse` giving, for a
  peer ip and a `since` value, the outcome of the HTTP GET in
  `pull_data_from_peer`.
* Python exceptions that a function catches internally never escape, so the
  embedded functions are total; fallible calls return `Option`/`Except`.
-/

namespace Nexum

/-- Entity types from `models/location.py` (`EntityType`). -/
inductive EntityType where
  | responder
  | civilian
  | incident
  | resource
  | hazard
deriving DecidableEq

/-- Geographic coordinates from `models/location.py` (`GeoLocation`);
float64 fields modelled as exact rationals, optional fields as `Option`. -/
structure GeoLocation where
  latitude : Rat
  longitude : Rat
  altitude : Option Rat
  accuracy : Option Rat
deriving DecidableEq

/-- A location report row from `models/location.py` (`LocationReport`) /
the `location_reports` table. UUIDs are kept as their string form (the
code stores and compares `str(report.id)`); `metadata` is an opaque
string-keyed map, modelled as an association list. -/
structure LocationReport where
  id : String
  entity_type : EntityType
  entity_id : String
  node_id : String
  position : GeoLocation
  created_at : Int
  metadata : List (String × String)
deriving DecidableEq

/-- A row of the `sync_log` table (columns used by `sync_service.py`:
`peer_node_id`, `last_known_ip`, `last_sync_at`). -/
structure SyncLogEntry where
  peer_node_id : String
  last_known_ip : String
  last_sync_at : Int
deriving DecidableEq

/-! ## Character-list helpers

Python string primitives used by the source (`str.split`, `str.strip`,
`in`, `str.startswith`, `int(s, 16)`, `str.lower`, regex MAC matching)
are modelled over `List Char`. -/

/-- Splits a character list at every occurrence of the separator, like
Python `str.split(sep)` for a one-character separator: always returns at
least one (possibly empty) piece. -/
def splitOnChar (sep : Char) : List Char → List (List Char)
  | [] => [[]]
  | c :: cs =>
    let rest := splitOnChar sep cs
    if c == sep then
      [] :: rest
    else
      match rest with
      | [] => [[c]]
      | piece :: pieces => (c :: piece) :: pieces

/-- Python `str.strip()`: removes leading and trailing whitespace. -/
def stripChars (cs : List Char) : List Char :=
  ((cs.dropWhile Char.isWhitespace).reverse.dropWhile Char.isWhitespace).reverse

/-- Value of one hexadecimal digit, as accepted by Python `int(d, 16)`. -/
def hexDigitVal (c : Char) : Option Nat :=
  if '0' ≤ c ∧ c ≤ '9' then some (c.toNat - '0'.toNat)
  else if 'a' ≤ c ∧ c ≤ 'f' then some (c.toNat - 'a'.toNat + 10)
  else if 'A' ≤ c ∧ c ≤ 'F' then some (c.toNat - 'A'.toNat + 10)
  else none

/-- Python `int(s, 16)` on a plain string of hex digits: `none` when the
string is empty or contains a non-hex-digit character (a `ValueError` in
the source, caught there). -/
def parseHex : List Char → Option Nat
  | [] => none
  | cs => parseHexAux cs 0
where
  /-- Folds hex digits into an accumulator. -/
  parseHexAux : List Char → Nat → Option Nat
    | [], acc => some acc
    | c :: cs, acc =>
      match hexDigitVal c with
      | some d => parseHexAux cs (16 * acc + d)
      | none => none

/-- True for a character matched by `[0-9a-fA-F]` in the MAC regex of
`get_all_peers`. -/
def isHexChar (c : Char) : Bool :=
  ('0' ≤ c && c ≤ '9') || ('a' ≤ c && c ≤ 'f') || ('A' ≤ c && c ≤ 'F')

/-- True for a character matched by `[:-]` in the MAC regex. -/
def isMacSep (c : Char) : Bool :=
  c == ':' || c == '-'

/-- Shape of the fixed-length (17-character) regex
`([0-9a-fA-F]{2}[:-]){5}([0-9a-fA-F]{2})`: five hex pairs each followed
by a separator, then a final hex pair. -/
def macShape : List (Char → Bool) :=
  [isHexChar, isHexChar, isMacSep,
   isHexChar, isHexChar, isMacSep,
   isHexChar, isHexChar, isMacSep,
   isHexChar, isHexChar, isMacSep,
   isHexChar, isHexChar, isMacSep,
   isHexChar, isHexChar]

/-- Checks that the beginning of `cs` matches every predicate of the
shape in order. -/
def matchesShape : List (Char → Bool) → List Char → Bool
  | [], _ => true
  | _ :: _, [] => false
  | p :: ps, c :: cs => p c && matchesShape ps cs

/-- Leftmost match of the MAC regex in a line (`mac_pattern.search`):
the regex is fixed-length, so the match is the first position whose next
17 characters fit `macShape`. -/
def firstMacMatch : List Char → Option (List Char)
  | [] => none
  | c :: cs =>
    if matchesShape macShape (c :: cs) then some ((c :: cs).take 17)
    else firstMacMatch cs

/-- Python `sub in s` for strings, on character lists. -/
def containsSub : List Char → List Char → Bool
  | [], sub => sub.isEmpty
  | c :: cs, sub => sub.isPrefixOf (c :: cs) || containsSub cs sub

/-- Python dict assignment `d[k] = v` on an association list: replaces
the value of an existing key, otherwise appends the binding. -/
def dictInsert (k v : String) : List (String × String) → List (String × String)
  | [] => [(k, v)]
  | (k', v') :: rest =>
    if k' == k then (k', v) :: rest else (k', v') :: dictInsert k v rest

/-! ## MAC → IP derivation (`SyncService._calculate_ip_from_mac`) -/

/-- The fixed network prefix `self.ip_range_base` ("From setup-mesh.sh"). -/
def ip_range_base : String := "169.254"

/-- Embedding of `SyncService._calculate_ip_from_mac`: split the MAC on
`':'`; require exactly 6 parts; convert parts 4 and 5 from hex to
decimal; produce `"169.254.{o3}.{o4}"`. Any failure (wrong part count,
`int(_, 16)` raising) yields `none`, as the source returns `None`. -/
def calculate_ip_from_mac (mac : List Char) : Option String :=
  let parts := splitOnChar ':' mac
  if parts.length ≠ 6 then none
  else
    match parts[4]?, parts[5]? with
    | some p4, some p5 =>
      match parseHex p4, parseHex p5 with
      | some o3, some o4 =>
        some (ip_range_base ++ "." ++ toString o3 ++ "." ++ toString o4)
      | _, _ => none
    | _, _ => none

/-! ## Peer discovery (`SyncService.get_all_peers`) -/

/-- Failure modes of the `subprocess.run(['sudo', 'batctl', 'o'], ...)`
invocation in `get_all_peers`, each caught there: `FileNotFoundError`
(tool missing), `subprocess.CalledProcessError` (non-zero exit, from
`check=True`), `subprocess.TimeoutExpired` and every other exception
(permission errors, output-processing errors) land in the final
`except Exception` clause. -/
inductive BatctlError where
  | toolMissing
  | nonZeroExit (returncode : Int)
  | timeoutExpired
  | otherError (message : String)
deriving DecidableEq

/-- Processing of one line of `batctl o` output inside the loop of
`get_all_peers`: skip blank, header and version lines; find the leftmost
MAC-regex match; normalize it (`-`→`:`, lowercase); skip the local node
id; derive the IP and add the peer when derivation succeeds. -/
def processBatctlLine (my_node_id : String) (peers : List (String × String))
    (line : List Char) : List (String × String) :=
  if (stripChars line).isEmpty then peers
  else if containsSub line "Originator".data && containsSub line "last-seen".data then peers
  else if "[B.A.T.M.A.N.".data.isPrefixOf line then peers
  else
    match firstMacMatch line with
    | none => peers
    | some macChars =>
      let normalized := (macChars.map (fun c => if c == '-' then ':' else c)).map Char.toLower
      let peer_mac : String := ⟨normalized⟩
      if peer_mac == my_node_id then peers
      else
        match calculate_ip_from_mac normalized with
        | some peer_ip => dictInsert peer_mac peer_ip peers
        | none => peers

/-- Embedding of `SyncService.get_all_peers`. On Windows a fixed mock
peer dict is returned without consulting the routing tool. Otherwise the
`batctl o` outcome is examined: every invocation failure yields the empty
dict (the source returns `{}` from each `except` clause), as does empty
output; on success the stripped output is split into lines and each line
is processed by `processBatctlLine`. -/
def get_all_peers (isWindows : Bool) (my_node_id : String)
    (batctl : Except BatctlError String) : List (String × String) :=
  if isWindows then
    [("aa:aa:aa:aa:aa:aa", "169.254.170.170"),
     ("bb:bb:bb:bb:bb:bb", "169.254.187.187")]
  else
    match batctl with
    | .error _ => []
    | .ok stdout =>
      if (stripChars stdout.data).isEmpty then []
      else
        let lines := splitOnChar '\n' (stripChars stdout.data)
        lines.foldl (processBatctlLine my_node_id) []

/-! ## Sync-state store (`sync_log` table operations in `sync_service.py`) -/

/-- The row lookup `SELECT ... FROM sync_log WHERE peer_node_id = ?`
shared by the `sync_log` operations. -/
def findPeer (log : List SyncLogEntry) (peer_node_id : String) : Option SyncLogEntry :=
  log.find? (fun e => e.peer_node_id == peer_node_id)

/-- Embedding of `SyncService.get_last_sync_time`: the `last_sync_at` of
the row with this `peer_node_id`, or `0` when no row exists. -/
def get_last_sync_time (log : List SyncLogEntry) (peer_node_id : String) : Int :=
  match findPeer log peer_node_id with
  | some e => e.last_sync_at
  | none => 0

/-- Row-wise effect of the SQL
`UPDATE sync_log SET last_sync_at = ?, last_known_ip = ? WHERE peer_node_id = ?`. -/
def updEntry (peer_node_id peer_ip : String) (now_ms : Int) (e : SyncLogEntry) :
    SyncLogEntry :=
  if e.peer_node_id == peer_node_id then
    { e with last_sync_at := now_ms, last_known_ip := peer_ip }
  else e

/-- Row-wise effect of the SQL
`UPDATE sync_log SET last_known_ip = ? WHERE peer_node_id = ?`. -/
def updIpEntry (peer_node_id peer_ip : String) (e : SyncLogEntry) : SyncLogEntry :=
  if e.peer_node_id == peer_node_id then { e with last_known_ip := peer_ip } else e

/-- Embedding of `SyncService.update_last_sync_time` at wall-clock time
`now_ms`: `UPDATE` of `last_sync_at` and `last_known_ip` when a row for
the peer exists, otherwise `INSERT` of a new row with `last_sync_at =
now_ms`. -/
def update_last_sync_time (log : List SyncLogEntry) (peer_node_id peer_ip : String)
    (now_ms : Int) : List SyncLogEntry :=
  match findPeer log peer_node_id with
  | some _ => log.map (updEntry peer_node_id peer_ip now_ms)
  | none => log ++ [⟨peer_node_id, peer_ip, now_ms⟩]

/-- One peer's step of the initialization loop at the top of
`SyncService.sync_with_all_peers`: `INSERT` a row with `last_sync_at = 0`
when the peer has none, otherwise keep the row and refresh only
`last_known_ip` when the IP changed. -/
def initSyncLogStep (log : List SyncLogEntry) (peer : String × String) :
    List SyncLogEntry :=
  match findPeer log peer.1 with
  | none => log ++ [⟨peer.1, peer.2, 0⟩]
  | some existing =>
    if existing.last_known_ip ≠ peer.2 then
      log.map (updIpEntry peer.1 peer.2)
    else log

/-- The initialization loop of `SyncService.sync_with_all_peers`
("Initialize sync_log entries for all peers"), one `initSyncLogStep` per
discovered peer. -/
def initializeSyncLogEntries (log : List SyncLogEntry)
    (peers : List (String × String)) : List SyncLogEntry :=
  peers.foldl initSyncLogStep log

/-! ## Report store (`location_reports` table) -/

/-- The duplicate check of `save_location_reports`
(`SELECT id FROM location_reports WHERE id = ?`). -/
def reportExists (db : List LocationReport) (rid : String) : Bool :=
  db.any (fun r => r.id == rid)

/-- Embedding of `SyncService.save_location_reports`: for each incoming
report, skip it when a row with the same `id` already exists, otherwise
insert it via `LocationService.add_location` (a plain `INSERT` appending
the row). Returns `(saved_count, skipped_count, new table state)`; the
loop's running counters are re-associated into the recursion. -/
def save_location_reports (db : List LocationReport) :
    List LocationReport → Nat × Nat × List LocationReport
  | [] => (0, 0, db)
  | report :: rest =>
    if reportExists db report.id then
      let (saved, skipped, cur) := save_location_reports db rest
      (saved, skipped + 1, cur)
    else
      let (saved, skipped, cur) := save_location_reports (db ++ [report]) rest
      (saved + 1, skipped, cur)

/-- Comparison used to model `ORDER BY created_at ASC`. -/
def byCreatedAt (a b : LocationReport) : Bool :=
  decide (a.created_at ≤ b.created_at)

/-- Embedding of `SyncService.get_node_data_since`: rows with this
`node_id` and `created_at > from_timestamp`, ascending by `created_at`. -/
def get_node_data_since (db : List LocationReport) (node_id : String)
    (from_timestamp : Int) : List LocationReport :=
  (db.filter (fun r => r.node_id == node_id && decide (from_timestamp < r.created_at))).mergeSort byCreatedAt

/-- Embedding of `SyncService.get_own_data_since` (one parameter,
`since_timestamp`): rows with `node_id = my_node_id` and
`created_at > since_timestamp`, ascending; when that exact-match query is
empty but case-insensitive matches on `node_id` exist in the table, the
query is retried with `LOWER(node_id) = LOWER(my_node_id)`. -/
def get_own_data_since (db : List LocationReport) (my_node_id : String)
    (since_timestamp : Int) : List LocationReport :=
  let rows := (db.filter (fun r =>
    r.node_id == my_node_id && decide (since_timestamp < r.created_at))).mergeSort byCreatedAt
  let ciCount := (db.filter (fun r => r.node_id.toLower == my_node_id.toLower)).length
  if rows = [] ∧ 0 < ciCount then
    (db.filter (fun r =>
      r.node_id.toLower == my_node_id.toLower && decide (since_timestamp < r.created_at))).mergeSort byCreatedAt
  else rows

/-! ## Pull client (`SyncService.pull_data_from_peer`) -/

/-- Outcome of the HTTP GET on `http://{ip}:5000/api/sync?since={ts}`:
either a success-status JSON body with its data array, or one of the
failure modes `pull_data_from_peer` catches (error-status body, timeout,
connection error, other request error, malformed JSON body). -/
inductive NetResponse where
  | success (data : List LocationReport)
  | peerError (message : String)
  | timeout
  | connectionError (detail : String)
  | requestError (detail : String)
  | jsonError (detail : String)
deriving DecidableEq

/-- Python truthiness of a status string (`status_msg and ...`). -/
def strNonempty (s : String) : Bool :=
  !s.data.isEmpty

/-- Python `status_msg.startswith("Pulled")`. -/
def startsWithPulled (s : String) : Bool :=
  "Pulled".data.isPrefixOf s.data

/-- Embedding of `SyncService.pull_data_from_peer` for a given network
outcome: returns `(status_message, data_list)`; every failure mode
returns its error message and an empty list. -/
def pull_data_from_peer (peer_ip : String) (since_timestamp : Int)
    (net : String → Int → NetResponse) : String × List LocationReport :=
  match net peer_ip since_timestamp with
  | .success data =>
    ("Pulled " ++ toString data.length ++ " new reports from " ++ peer_ip, data)
  | .peerError m => ("Peer returned error: " ++ m, [])
  | .timeout =>
    ("Timeout connecting to " ++ peer_ip ++ " (peer may be slow or unreachable)", [])
  | .connectionError d => ("Connection error to " ++ peer_ip ++ ": " ++ d, [])
  | .requestError d => ("Request failed to " ++ peer_ip ++ ": " ++ d, [])
  | .jsonError d => ("Failed to parse response from " ++ peer_ip ++ ": " ++ d, [])

/-- The success test of the sync loop:
`is_successful = data_list or (status_msg and status_msg.startswith("Pulled"))`. -/
def isSuccessful (status_msg : String) (data_list : List LocationReport) : Bool :=
  !data_list.isEmpty || (strNonempty status_msg && startsWithPulled status_msg)

/-- Discriminator of a network outcome: true exactly for a success-status
response (the only case whose status message starts with "Pulled"). -/
def successfulResponse : NetResponse → Bool
  | .success _ => true
  | _ => false

/-! ## Sync cycle (`SyncService.sync_with_all_peers`) -/

/-- The cycle summary dict built by `sync_with_all_peers`. -/
structure SyncResults where
  peers_found : Nat
  peers_synced : Nat
  total_reports_pulled : Nat
  total_reports_saved : Nat
  total_reports_skipped : Nat
  errors : List String
  messages : List String
deriving DecidableEq

/-- Full observable state of one running sync cycle: the summary under
construction, the `sync_log` table, the `location_reports` table, and a
trace of the pull requests issued so far — each recorded as the
`(peer_ip, since)` pair of the URL
`http://{ip}:5000/api/sync?since={ts}` built in `pull_data_from_peer`. -/
structure SyncCycleState where
  results : SyncResults
  syncLog : List SyncLogEntry
  db : List LocationReport
  pulls : List (String × Int)
deriving DecidableEq

/-- The body of the per-peer loop of `SyncService.sync_with_all_peers`:
read the peer's watermark, issue one pull with it, and on success save
the returned reports, append the message, set the watermark to `now_ms`
and count the peer as synced; on failure record one error. -/
def syncPeerStep (net : String → Int → NetResponse) (now_ms : Int)
    (s : SyncCycleState) (peer : String × String) : SyncCycleState :=
  let peer_mac := peer.1
  let peer_ip := peer.2
  let last_sync := get_last_sync_time s.syncLog peer_mac
  let pulled := pull_data_from_peer peer_ip last_sync net
  let status_msg := pulled.1
  let data_list := pulled.2
  let s := { s with pulls := s.pulls ++ [(peer_ip, last_sync)] }
  if isSuccessful status_msg data_list then
    let r := s.results
    let r :=
      if !data_list.isEmpty then
        let (saved_count, skipped_count, _) := save_location_reports s.db data_list
        { r with
          total_reports_pulled := r.total_reports_pulled + data_list.length,
          total_reports_saved := r.total_reports_saved + saved_count,
          total_reports_skipped := r.total_reports_skipped + skipped_count,
          messages := r.messages ++
            ["Peer " ++ peer_mac ++ " (" ++ peer_ip ++ "): " ++ status_msg ++
              " - Saved " ++ toString saved_count ++ ", Skipped " ++ toString skipped_count] }
      else
        { r with messages := r.messages ++
            ["Peer " ++ peer_mac ++ " (" ++ peer_ip ++ "): " ++ status_msg] }
    let db :=
      if !data_list.isEmpty then (save_location_reports s.db data_list).2.2 else s.db
    { s with
      results := { r with peers_synced := r.peers_synced + 1 },
      db := db,
      syncLog := update_last_sync_time s.syncLog peer_mac peer_ip now_ms }
  else
    let error_msg := "Failed to pull from " ++ peer_mac ++ " (" ++ peer_ip ++ "): " ++ status_msg
    { s with results := { s.results with
        errors := s.results.errors ++ [error_msg],
        messages := s.results.messages ++ [error_msg] } }

/-- Embedding of `SyncService.sync_with_all_peers` over an already
discovered peer dict: initialize `sync_log` rows for every peer, then run
the per-peer loop. Every per-peer exception is caught in the source
(recorded in `errors`), so the cycle is a total function into its final
state; nothing propagates out of it. -/
def sync_with_all_peers (peers : List (String × String))
    (net : String → Int → NetResponse) (now_ms : Int)
    (log0 : List SyncLogEntry) (db0 : List LocationReport) : SyncCycleState :=
  let log1 := initializeSyncLogEntries log0 peers
  peers.foldl (syncPeerStep net now_ms)
    ⟨⟨peers.length, 0, 0, 0, 0, [], []⟩, log1, db0, []⟩

/-! ## Sync-data serving route (`sync_routes.get_sync_data`) -/

/-- A Flask JSON response of the GET handler on `/api/sync`: the
success body with `count` and `data`, the 400 invalid-parameter body, or
the 500 server-error body. -/
inductive HandlerResponse where
  | success (count : Nat) (data : List LocationReport)
  | badRequest (message : String)
  | serverError (message : String)
deriving DecidableEq

/-- CPython call binding for `SyncService.get_own_data_since`, which
declares exactly one parameter after `self` (`since_timestamp`): a call
with any other number of positional arguments raises `TypeError`. -/
def callGetOwnDataSince (db : List LocationReport) (my_node_id : String)
    (args : List Int) : Except String (List LocationReport) :=
  match args with
  | [since_timestamp] => .ok (get_own_data_since db my_node_id since_timestamp)
  | _ => .error ("TypeError: get_own_data_since() takes 2 positional arguments but " ++ toString (args.length + 1) ++ " were given")

/-- Embedding of the GET handler `get_sync_data` in
`routes/sync_routes.py`: it invokes `get_own_data_since(since, until)`
with two arguments (`until` is the current time); a `ValueError` would
give the 400 body, and any other exception gives the 500 body
`{"status": "error", "message": "Server error: ..."}`. The
`log_incoming_sync_request` call before it swallows its own exceptions
and does not affect the response. -/
def get_sync_data (db : List LocationReport) (my_node_id : String)
    (since until_ms : Int) : HandlerResponse :=
  match callGetOwnDataSince db my_node_id [since, until_ms] with
  | .ok data => .success data.length data
  | .error m => .serverError ("Server error: " ++ m)

/-! ## Lemmas about the status-message success test -/

theorem startsWithPulled_success (a b c : String) :
    startsWithPulled ("Pulled " ++ a ++ b ++ c) = true := by
  unfold startsWithPulled
  rw [String.data_append, String.data_append, String.data_append]
  rfl

theorem strNonempty_success (a b c : String) :
    strNonempty ("Pulled " ++ a ++ b ++ c) = true := by
  unfold strNonempty
  rw [String.data_append, String.data_append, String.data_append]
  rfl

theorem startsWithPulled_peerErr (m : String) :
    startsWithPulled ("Peer returned error: " ++ m) = false := by
  unfold startsWithPulled
  rw [String.data_append]
  rfl

theorem startsWithPulled_timeout (ip : String) :
    startsWithPulled ("Timeout connecting to " ++ ip ++ " (peer may be slow or unreachable)") = false := by
  unfold startsWithPulled
  rw [String.data_append, String.data_append]
  rfl

theorem startsWithPulled_conn (ip d : String) :
    startsWithPulled ("Connection error to " ++ ip ++ ": " ++ d) = false := by
  unfold startsWithPulled
  rw [String.data_append, String.data_append, String.data_append]
  rfl

theorem startsWithPulled_req (ip d : String) :
    startsWithPulled ("Request failed to " ++ ip ++ ": " ++ d) = false := by
  unfold startsWithPulled
  rw [String.data_append, String.data_append, String.data_append]
  rfl

theorem startsWithPulled_json (ip d : String) :
    startsWithPulled ("Failed to parse response from " ++ ip ++ ": " ++ d) = false := by
  unfold startsWithPulled
  rw [String.data_append, String.data_append, String.data_append]
  rfl

/-- The loop's `is_successful` test applied to a pull's result agrees
with the discriminator of the underlying network outcome: exactly the
success-status responses pass it (an empty success body still passes,
via the "Pulled 0 ..." status message). -/
theorem isSuccessful_pull (net : String → Int → NetResponse) (ip : String) (since : Int) :
    isSuccessful (pull_data_from_peer ip since net).1 (pull_data_from_peer ip since net).2
      = successfulResponse (net ip since) := by
  cases hnet : net ip since with
  | success data =>
    simp [pull_data_from_peer, hnet, isSuccessful, successfulResponse,
      startsWithPulled_success, strNonempty_success]
  | peerError m =>
    simp [pull_data_from_peer, hnet, isSuccessful, successfulResponse,
      startsWithPulled_peerErr]
  | timeout =>
    simp [pull_data_from_peer, hnet, isSuccessful, successfulResponse,
      startsWithPulled_timeout]
  | connectionError d =>
    simp [pull_data_from_peer, hnet, isSuccessful, successfulResponse,
      startsWithPulled_conn]
  | requestError d =>
    simp [pull_data_from_peer, hnet, isSuccessful, successfulResponse,
      startsWithPulled_req]
  | jsonError d =>
    simp [pull_data_from_peer, hnet, isSuccessful, successfulResponse,
      startsWithPulled_json]

/-- The records carried by a network outcome (empty in the error cases). -/
def responseData : NetResponse → List LocationReport
  | .success data => data
  | _ => []

theorem pull_data_from_peer_snd (net : String → Int → NetResponse) (ip : String) (since : Int) :
    (pull_data_from_peer ip since net).2 = responseData (net ip since) := by
  cases hnet : net ip since <;> simp [pull_data_from_peer, hnet, responseData]

/-! ## Lemmas about the sync-state store -/

theorem findPeer_append (l1 l2 : List SyncLogEntry) (mac : String) :
    findPeer (l1 ++ l2) mac = (findPeer l1 mac).or (findPeer l2 mac) :=
  List.find?_append

theorem findPeer_singleton_self (mac ip : String) (t : Int) :
    findPeer [⟨mac, ip, t⟩] mac = some ⟨mac, ip, t⟩ := by
  simp [findPeer]

theorem findPeer_singleton_other (m mac ip : String) (t : Int) (h : mac ≠ m) :
    findPeer [⟨m, ip, t⟩] mac = none := by
  simp only [findPeer, List.find?]
  have : (SyncLogEntry.peer_node_id ⟨m, ip, t⟩ == mac) = false := by
    simp only [beq_eq_false_iff_ne]
    exact fun hc => h hc.symm
  rw [this]

/-- `find?` on a row-wise map that keeps `peer_node_id` unchanged. -/
theorem findPeer_map (f : SyncLogEntry → SyncLogEntry)
    (hf : ∀ e, (f e).peer_node_id = e.peer_node_id)
    (log : List SyncLogEntry) (mac : String) :
    findPeer (log.map f) mac = (findPeer log mac).map f := by
  induction log with
  | nil => rfl
  | cons e rest ih =>
    simp only [List.map_cons, findPeer, List.find?] at *
    rw [hf e]
    cases hb : (e.peer_node_id == mac) with
    | true => rfl
    | false => exact ih

/-- The row found by `findPeer` matches the requested `peer_node_id`. -/
theorem findPeer_id (log : List SyncLogEntry) (mac : String) (e : SyncLogEntry)
    (h : findPeer log mac = some e) : e.peer_node_id = mac := by
  have := List.find?_some h
  simpa using this

theorem updEntry_keeps_id (mac ip : String) (now : Int) (e : SyncLogEntry) :
    (updEntry mac ip now e).peer_node_id = e.peer_node_id := by
  unfold updEntry
  by_cases h : (e.peer_node_id == mac) = true
  · rw [if_pos h]
  · rw [if_neg h]

theorem updIpEntry_keeps_id (mac ip : String) (e : SyncLogEntry) :
    (updIpEntry mac ip e).peer_node_id = e.peer_node_id := by
  unfold updIpEntry
  by_cases h : (e.peer_node_id == mac) = true
  · rw [if_pos h]
  · rw [if_neg h]

theorem updIpEntry_keeps_last (mac ip : String) (e : SyncLogEntry) :
    (updIpEntry mac ip e).last_sync_at = e.last_sync_at := by
  unfold updIpEntry
  by_cases h : (e.peer_node_id == mac) = true
  · rw [if_pos h]
  · rw [if_neg h]

theorem get_last_update_self (log : List SyncLogEntry) (mac ip : String) (now : Int) :
    get_last_sync_time (update_last_sync_time log mac ip now) mac = now := by
  unfold update_last_sync_time
  cases hf : findPeer log mac with
  | some e =>
    have hmap := findPeer_map (updEntry mac ip now) (updEntry_keeps_id mac ip now) log mac
    have hid : (e.peer_node_id == mac) = true := by
      rw [findPeer_id log mac e hf]
      exact beq_self_eq_true mac
    dsimp only
    unfold get_last_sync_time
    rw [hmap, hf]
    show (updEntry mac ip now e).last_sync_at = now
    unfold updEntry
    rw [if_pos hid]
  | none =>
    dsimp only
    unfold get_last_sync_time
    rw [findPeer_append, hf, findPeer_singleton_self]
    rfl

theorem get_last_update_other (log : List SyncLogEntry) (m ip : String) (now : Int)
    (mac : String) (hne : mac ≠ m) :
    get_last_sync_time (update_last_sync_time log m ip now) mac =
      get_last_sync_time log mac := by
  unfold update_last_sync_time
  cases hf : findPeer log m with
  | some e =>
    have hmap := findPeer_map (updEntry m ip now) (updEntry_keeps_id m ip now) log mac
    dsimp only
    unfold get_last_sync_time
    rw [hmap]
    cases hm : findPeer log mac with
    | some e' =>
      have hpe : (e'.peer_node_id == m) = false := by
        rw [findPeer_id log mac e' hm]
        simp only [beq_eq_false_iff_ne]
        exact hne
      show (updEntry m ip now e').last_sync_at = e'.last_sync_at
      unfold updEntry
      rw [if_neg (by rw [hpe]; exact Bool.false_ne_true)]
    | none => rfl
  | none =>
    dsimp only
    unfold get_last_sync_time
    rw [findPeer_append, findPeer_singleton_other m mac ip now hne, Option.or_none]

/-- The per-peer initialization step never touches a different peer's row. -/
theorem findPeer_initStep_other (log : List SyncLogEntry) (p : String × String)
    (mac : String) (hne : mac ≠ p.1) :
    findPeer (initSyncLogStep log p) mac = findPeer log mac := by
  unfold initSyncLogStep
  cases hf : findPeer log p.1 with
  | none =>
    dsimp only
    rw [findPeer_append, findPeer_singleton_other p.1 mac p.2 0 hne, Option.or_none]
  | some ex =>
    have hmap := findPeer_map (updIpEntry p.1 p.2) (updIpEntry_keeps_id p.1 p.2) log mac
    dsimp only
    by_cases hip : ex.last_known_ip ≠ p.2
    · rw [if_pos hip, hmap]
      cases hm : findPeer log mac with
      | some e' =>
        have hpe : (e'.peer_node_id == p.1) = false := by
          rw [findPeer_id log mac e' hm]
          simp only [beq_eq_false_iff_ne]
          exact hne
        show some (updIpEntry p.1 p.2 e') = some e'
        unfold updIpEntry
        rw [if_neg (by rw [hpe]; exact Bool.false_ne_true)]
      | none => rfl
    · rw [if_neg hip]

/-- The per-peer initialization step never changes any observed
watermark: a missing row reads as `0` before and is created with `0`. -/
theorem get_last_initStep (log : List SyncLogEntry) (p : String × String) (mac : String) :
    get_last_sync_time (initSyncLogStep log p) mac = get_last_sync_time log mac := by
  by_cases hne : mac = p.1
  · subst hne
    unfold initSyncLogStep
    cases hf : findPeer log p.1 with
    | none =>
      dsimp only
      unfold get_last_sync_time
      rw [findPeer_append, hf, findPeer_singleton_self]
      rfl
    | some ex =>
      have hmap := findPeer_map (updIpEntry p.1 p.2) (updIpEntry_keeps_id p.1 p.2) log p.1
      dsimp only
      by_cases hip : ex.last_known_ip ≠ p.2
      · rw [if_pos hip]
        unfold get_last_sync_time
        rw [hmap, hf]
        show (updIpEntry p.1 p.2 ex).last_sync_at = ex.last_sync_at
        exact updIpEntry_keeps_last p.1 p.2 ex
      · rw [if_neg hip]
  · unfold get_last_sync_time
    rw [findPeer_initStep_other log p mac hne]

/-- Initialization preserves every observed watermark
(`get_last_sync_time` before and after agree for every peer). -/
theorem get_last_init (log : List SyncLogEntry) (peers : List (String × String))
    (mac : String) :
    get_last_sync_time (initializeSyncLogEntries log peers) mac =
      get_last_sync_time log mac := by
  induction peers generalizing log with
  | nil => rfl
  | cons p rest ih =>
    show get_last_sync_time (initializeSyncLogEntries (initSyncLogStep log p) rest) mac = _
    rw [ih, get_last_initStep]

theorem findPeer_init_notMem (log : List SyncLogEntry) (peers : List (String × String))
    (mac : String) (h : mac ∉ peers.map Prod.fst) :
    findPeer (initializeSyncLogEntries log peers) mac = findPeer log mac := by
  induction peers generalizing log with
  | nil => rfl
  | cons p rest ih =>
    have h1 : mac ≠ p.1 := by
      intro hc
      exact h (by simp [hc])
    have h2 : mac ∉ rest.map Prod.fst := by
      intro hc
      exact h (by simp [hc])
    show findPeer (initializeSyncLogEntries (initSyncLogStep log p) rest) mac = _
    rw [ih _ h2, findPeer_initStep_other log p mac h1]

/-- A row created by the initialization loop for a first-seen peer:
`(peer, ip, 0)`, untouched by the steps for the remaining peers. -/
theorem init_creates (log : List SyncLogEntry) (peers : List (String × String))
    (mac ip : String) (hnd : (peers.map Prod.fst).Nodup) (hmem : (mac, ip) ∈ peers)
    (habs : findPeer log mac = none) :
    findPeer (initializeSyncLogEntries log peers) mac = some ⟨mac, ip, 0⟩ := by
  induction peers generalizing log with
  | nil => cases hmem
  | cons p rest ih =>
    rcases List.mem_cons.mp hmem with hp | hrest
    · subst hp
      have hnotin : mac ∉ rest.map Prod.fst := by
        simpa using (List.nodup_cons.mp hnd).1
      show findPeer (initializeSyncLogEntries (initSyncLogStep log (mac, ip)) rest) mac = _
      rw [findPeer_init_notMem _ rest mac hnotin]
      unfold initSyncLogStep
      dsimp only
      rw [habs]
      dsimp only
      rw [findPeer_append, habs, findPeer_singleton_self, Option.none_or]
    · have hne : mac ≠ p.1 := by
        intro hc
        have hmac : mac ∈ rest.map Prod.fst :=
          List.mem_map.mpr ⟨(mac, ip), hrest, rfl⟩
        rw [hc] at hmac
        exact (List.nodup_cons.mp hnd).1 hmac
      show findPeer (initializeSyncLogEntries (initSyncLogStep log p) rest) mac = _
      exact ih (initSyncLogStep log p) (List.nodup_cons.mp hnd).2 hrest
        (by rw [findPeer_initStep_other log p mac hne]; exact habs)

/-- One initialization step keeps an existing row's `last_sync_at`. -/
theorem initStep_keeps (log : List SyncLogEntry) (p : String × String)
    (mac : String) (e : SyncLogEntry) (hf : findPeer log mac = some e) :
    ∃ e', findPeer (initSyncLogStep log p) mac = some e' ∧
      e'.last_sync_at = e.last_sync_at := by
  by_cases hne : mac = p.1
  · subst hne
    unfold initSyncLogStep
    rw [hf]
    dsimp only
    by_cases hip : e.last_known_ip ≠ p.2
    · rw [if_pos hip]
      have hmap := findPeer_map (updIpEntry p.1 p.2) (updIpEntry_keeps_id p.1 p.2) log p.1
      refine ⟨updIpEntry p.1 p.2 e, ?_, updIpEntry_keeps_last p.1 p.2 e⟩
      rw [hmap, hf]
      rfl
    · rw [if_neg hip]
      exact ⟨e, hf, rfl⟩
  · rw [findPeer_initStep_other log p mac hne]
    exact ⟨e, hf, rfl⟩

/-- The initialization loop keeps every existing row's `last_sync_at`. -/
theorem init_keeps (log : List SyncLogEntry) (peers : List (String × String))
    (mac : String) (e : SyncLogEntry) (hf : findPeer log mac = some e) :
    ∃ e', findPeer (initializeSyncLogEntries log peers) mac = some e' ∧
      e'.last_sync_at = e.last_sync_at := by
  induction peers generalizing log e with
  | nil => exact ⟨e, hf, rfl⟩
  | cons p rest ih =>
    obtain ⟨e1, he1, hlast1⟩ := initStep_keeps log p mac e hf
    obtain ⟨e2, he2, hlast2⟩ := ih (initSyncLogStep log p) e1 he1
    exact ⟨e2, he2, hlast2.trans hlast1⟩

/-! ## Lemmas about the per-peer sync loop -/

theorem syncPeerStep_syncLog (net : String → Int → NetResponse) (now : Int)
    (s : SyncCycleState) (p : String × String) :
    (syncPeerStep net now s p).syncLog =
      if successfulResponse (net p.2 (get_last_sync_time s.syncLog p.1)) then
        update_last_sync_time s.syncLog p.1 p.2 now
      else s.syncLog := by
  unfold syncPeerStep
  dsimp only
  rw [isSuccessful_pull]
  by_cases hS : successfulResponse (net p.2 (get_last_sync_time s.syncLog p.1)) = true
  · simp [hS]
  · simp [hS]

theorem syncPeerStep_pulls (net : String → Int → NetResponse) (now : Int)
    (s : SyncCycleState) (p : String × String) :
    (syncPeerStep net now s p).pulls =
      s.pulls ++ [(p.2, get_last_sync_time s.syncLog p.1)] := by
  unfold syncPeerStep
  dsimp only
  by_cases hS : isSuccessful (pull_data_from_peer p.2 (get_last_sync_time s.syncLog p.1) net).1
      (pull_data_from_peer p.2 (get_last_sync_time s.syncLog p.1) net).2 = true
  · simp [hS]
  · simp [hS]

/-- Processing other peers never changes a peer's observed watermark. -/
theorem loop_notMem (net : String → Int → NetResponse) (now : Int)
    (peers : List (String × String)) (s : SyncCycleState) (mac : String)
    (h : mac ∉ peers.map Prod.fst) :
    get_last_sync_time ((peers.foldl (syncPeerStep net now) s).syncLog) mac =
      get_last_sync_time s.syncLog mac := by
  induction peers generalizing s with
  | nil => rfl
  | cons p rest ih =>
    have h1 : mac ≠ p.1 := by
      intro hc
      exact h (by simp [hc])
    have h2 : mac ∉ rest.map Prod.fst := by
      intro hc
      exact h (by simp [hc])
    show get_last_sync_time ((rest.foldl (syncPeerStep net now) (syncPeerStep net now s p)).syncLog) mac = _
    rw [ih (syncPeerStep net now s p) h2, syncPeerStep_syncLog]
    by_cases hS : successfulResponse (net p.2 (get_last_sync_time s.syncLog p.1)) = true
    · rw [if_pos hS]
      exact get_last_update_other s.syncLog p.1 p.2 now mac h1
    · rw [if_neg hS]

/-- After the loop, the watermark of peer `(mac, ip)` is `now` when its
pull had a success-status response and its previous value otherwise. -/
theorem loop_mem (net : String → Int → NetResponse) (now : Int)
    (peers : List (String × String)) (s : SyncCycleState) (mac ip : String)
    (hnd : (peers.map Prod.fst).Nodup) (hmem : (mac, ip) ∈ peers) :
    get_last_sync_time ((peers.foldl (syncPeerStep net now) s).syncLog) mac =
      if successfulResponse (net ip (get_last_sync_time s.syncLog mac)) then now
      else get_last_sync_time s.syncLog mac := by
  induction peers generalizing s with
  | nil => cases hmem
  | cons p rest ih =>
    rcases List.mem_cons.mp hmem with hp | hrest
    · have hnotin : mac ∉ rest.map Prod.fst := by
        have := (List.nodup_cons.mp hnd).1
        rw [← hp] at this
        exact this
      show get_last_sync_time ((rest.foldl (syncPeerStep net now) (syncPeerStep net now s p)).syncLog) mac = _
      rw [loop_notMem net now rest _ mac hnotin, syncPeerStep_syncLog, ← hp]
      by_cases hS : successfulResponse (net ip (get_last_sync_time s.syncLog mac)) = true
      · rw [if_pos hS, if_pos hS]
        exact get_last_update_self s.syncLog mac ip now
      · rw [if_neg hS, if_neg hS]
    · have hne : mac ≠ p.1 := by
        intro hc
        have hmac : mac ∈ rest.map Prod.fst :=
          List.mem_map.mpr ⟨(mac, ip), hrest, rfl⟩
        rw [hc] at hmac
        exact (List.nodup_cons.mp hnd).1 hmac
      have hkeep : get_last_sync_time ((syncPeerStep net now s p).syncLog) mac =
          get_last_sync_time s.syncLog mac := by
        rw [syncPeerStep_syncLog]
        by_cases hS : successfulResponse (net p.2 (get_last_sync_time s.syncLog p.1)) = true
        · rw [if_pos hS]
          exact get_last_update_other s.syncLog p.1 p.2 now mac hne
        · rw [if_neg hS]
      show get_last_sync_time ((rest.foldl (syncPeerStep net now) (syncPeerStep net now s p)).syncLog) mac = _
      rw [ih (syncPeerStep net now s p) (List.nodup_cons.mp hnd).2 hrest, hkeep]

/-- The loop issues exactly one pull per peer, whose `since` value is
that peer's watermark as observed at the start of the loop. -/
theorem loop_pulls (net : String → Int → NetResponse) (now : Int)
    (peers : List (String × String)) (s : SyncCycleState)
    (hnd : (peers.map Prod.fst).Nodup) :
    (peers.foldl (syncPeerStep net now) s).pulls =
      s.pulls ++ peers.map (fun p => (p.2, get_last_sync_time s.syncLog p.1)) := by
  induction peers generalizing s with
  | nil => simp
  | cons p rest ih =>
    show (rest.foldl (syncPeerStep net now) (syncPeerStep net now s p)).pulls = _
    rw [ih (syncPeerStep net now s p) (List.nodup_cons.mp hnd).2, syncPeerStep_pulls]
    have hcongr : rest.map (fun q => (q.2, get_last_sync_time ((syncPeerStep net now s p).syncLog) q.1)) =
        rest.map (fun q => (q.2, get_last_sync_time s.syncLog q.1)) := by
      apply List.map_congr_left
      intro q hq
      have hne : q.1 ≠ p.1 := by
        intro hc
        have : q.1 ∈ rest.map Prod.fst := List.mem_map.mpr ⟨q, hq, rfl⟩
        rw [hc] at this
        exact (List.nodup_cons.mp hnd).1 this
      have : get_last_sync_time ((syncPeerStep net now s p).syncLog) q.1 =
          get_last_sync_time s.syncLog q.1 := by
        rw [syncPeerStep_syncLog]
        by_cases hS : successfulResponse (net p.2 (get_last_sync_time s.syncLog p.1)) = true
        · rw [if_pos hS]
          exact get_last_update_other s.syncLog p.1 p.2 now q.1 hne
        · rw [if_neg hS]
      rw [this]
    rw [hcongr, List.append_assoc]
    rfl

/-- On a failed pull the step leaves the table and the watermarks alone
and records exactly one error message. -/
theorem syncPeerStep_fail (net : String → Int → NetResponse) (now : Int)
    (s : SyncCycleState) (p : String × String)
    (hS : successfulResponse (net p.2 (get_last_sync_time s.syncLog p.1)) = false) :
    (syncPeerStep net now s p).db = s.db ∧
    (syncPeerStep net now s p).results.errors = s.results.errors ++
      ["Failed to pull from " ++ p.1 ++ " (" ++ p.2 ++ "): " ++
        (pull_data_from_peer p.2 (get_last_sync_time s.syncLog p.1) net).1] := by
  unfold syncPeerStep
  dsimp only
  rw [isSuccessful_pull, hS]
  simp

/-- On a success-status pull the step saves the returned records (when
any) and records no error. -/
theorem syncPeerStep_succ (net : String → Int → NetResponse) (now : Int)
    (s : SyncCycleState) (p : String × String) (recs : List LocationReport)
    (hnet : net p.2 (get_last_sync_time s.syncLog p.1) = NetResponse.success recs) :
    (syncPeerStep net now s p).db =
      (if recs.isEmpty then s.db else (save_location_reports s.db recs).2.2) ∧
    (syncPeerStep net now s p).results.errors = s.results.errors := by
  unfold syncPeerStep
  dsimp only
  rw [isSuccessful_pull, pull_data_from_peer_snd net p.2 (get_last_sync_time s.syncLog p.1),
    hnet]
  dsimp only [responseData, successfulResponse]
  cases hE : recs.isEmpty <;> simp [hE]

/-- `save_location_reports` on a batch of reports whose ids are pairwise
distinct and absent from the table saves them all in order. -/
theorem save_fresh (db : List LocationReport) (recs : List LocationReport)
    (hfresh : ∀ r ∈ recs, reportExists db r.id = false)
    (hnd : (recs.map (fun r => r.id)).Nodup) :
    save_location_reports db recs = (recs.length, 0, db ++ recs) := by
  induction recs generalizing db with
  | nil => simp [save_location_reports]
  | cons r rest ih =>
    have hr : reportExists db r.id = false := hfresh r (List.mem_cons_self r rest)
    have hfresh' : ∀ x ∈ rest, reportExists (db ++ [r]) x.id = false := by
      intro x hx
      have hxdb : reportExists db x.id = false := hfresh x (List.mem_cons_of_mem r hx)
      have hxid : x.id ≠ r.id := by
        intro hc
        have : r.id ∈ rest.map (fun q => q.id) := List.mem_map.mpr ⟨x, hx, hc⟩
        exact (List.nodup_cons.mp hnd).1 this
      unfold reportExists at *
      rw [List.any_append, hxdb]
      simp
      exact fun hc => hxid hc.symm
    unfold save_location_reports
    rw [hr]
    dsimp only
    rw [ih (db ++ [r]) hfresh' (List.nodup_cons.mp hnd).2]
    simp

/-! ## Lemmas about peer discovery -/

/-- Membership in a dict after `d[k] = v`: the element either has key `k`
or was already present. -/
theorem mem_dictInsert (k v : String) (l : List (String × String))
    (x : String × String) (hx : x ∈ dictInsert k v l) : x.1 = k ∨ x ∈ l := by
  induction l with
  | nil =>
    have hxy : x = (k, v) := List.mem_singleton.mp hx
    exact Or.inl (by rw [hxy])
  | cons p rest ih =>
    unfold dictInsert at hx
    by_cases hk : (p.1 == k) = true
    · rw [if_pos hk] at hx
      rcases List.mem_cons.mp hx with h | hmem
      · rw [h]
        exact Or.inl (by simpa using hk)
      · exact Or.inr (List.mem_cons_of_mem p hmem)
    · rw [if_neg hk] at hx
      rcases List.mem_cons.mp hx with h | hmem
      · rw [h]
        exact Or.inr (List.mem_cons_self p rest)
      · rcases ih hmem with h | h
        · exact Or.inl h
        · exact Or.inr (List.mem_cons_of_mem p h)

/-- A line-processing step only ever adds keys that differ from the
local node id (the `peer_mac == my_node_id` guard). -/
theorem processBatctlLine_keys (my_node_id : String) (acc : List (String × String))
    (line : List Char) (hacc : ∀ x ∈ acc, x.1 ≠ my_node_id) :
    ∀ x ∈ processBatctlLine my_node_id acc line, x.1 ≠ my_node_id := by
  intro x hx
  unfold processBatctlLine at hx
  split at hx
  · exact hacc x hx
  · split at hx
    · exact hacc x hx
    · split at hx
      · exact hacc x hx
      · split at hx
        · exact hacc x hx
        · rename_i macChars heq
          dsimp only at hx
          split at hx
          · exact hacc x hx
          · rename_i hguard
            split at hx
            · rename_i ipv hip
              rcases mem_dictInsert _ _ _ x hx with hkey | hmem
              · rw [hkey]
                intro hc
                exact hguard (by simpa using hc)
              · exact hacc x hmem
            · exact hacc x hx

/-- Folding the line processor preserves the key invariant. -/
theorem foldl_processBatctlLine_keys (my_node_id : String)
    (lines : List (List Char)) (acc : List (String × String))
    (hacc : ∀ x ∈ acc, x.1 ≠ my_node_id) :
    ∀ x ∈ lines.foldl (processBatctlLine my_node_id) acc, x.1 ≠ my_node_id := by
  induction lines generalizing acc with
  | nil => exact hacc
  | cons line rest ih =>
    exact ih (processBatctlLine my_node_id acc line)
      (processBatctlLine_keys my_node_id acc line hacc)

/-! ## Claim theorems -/

/-- Fixture: a location report originating at node `bb:bb:bb:bb:bb:bb`
with `created_at = 100`. -/
def testReport : LocationReport :=
  ⟨"11111111-1111-1111-1111-111111111111", EntityType.responder,
   "22222222-2222-2222-2222-222222222222", "bb:bb:bb:bb:bb:bb",
   ⟨45, 16, none, none⟩, 100, []⟩

/-- Fixture: an older location report from another node with
`created_at = 50`. -/
def testReportOld : LocationReport :=
  ⟨"33333333-3333-3333-3333-333333333333", EntityType.civilian,
   "44444444-4444-4444-4444-444444444444", "cc:cc:cc:cc:cc:cc",
   ⟨44, 15, none, none⟩, 50, []⟩

/-- Fixture: a network where every pull returns one report. -/
def netSuccessOne : String → Int → NetResponse :=
  fun _ _ => NetResponse.success [testReport]

/-- Fixture: a network where every pull times out. -/
def netTimeoutAll : String → Int → NetResponse :=
  fun _ _ => NetResponse.timeout

/-- Fixture: a network where peer `169.254.170.170` is unreachable and
every other peer returns one report. -/
def netPartial : String → Int → NetResponse :=
  fun ip _ =>
    if ip == "169.254.170.170" then
      NetResponse.connectionError "No route to host (check mesh network routing)"
    else NetResponse.success [testReport]

/-- C4: every GET request to the node's own sync-data serving endpoint
calls `get_own_data_since(since, until)` with two arguments although the
function accepts only `since_timestamp`, so the call raises `TypeError`
and the handler's catch-all returns the error body with HTTP 500; no
request receives the success payload. -/
theorem get_sync_data_always_server_error (db : List LocationReport)
    (my_node_id : String) (since until_ms : Int) :
    get_sync_data db my_node_id since until_ms =
      HandlerResponse.serverError
        "Server error: TypeError: get_own_data_since() takes 2 positional arguments but 3 were given" := by
  have h : get_sync_data db my_node_id since until_ms =
      HandlerResponse.serverError ("Server error: " ++
        ("TypeError: get_own_data_since() takes 2 positional arguments but " ++
          toString (3 : Nat) ++ " were given")) := rfl
  rw [h]
  have h2 : ("Server error: " ++
      ("TypeError: get_own_data_since() takes 2 positional arguments but " ++
        toString (3 : Nat) ++ " were given")) =
      "Server error: TypeError: get_own_data_since() takes 2 positional arguments but 3 were given" := rfl
  rw [h2]

/-- C10: on every failure to invoke the mesh routing tool — command
missing (`FileNotFoundError`), non-zero exit (`CalledProcessError`),
timeout (`TimeoutExpired`), or any other error, including errors raised
while processing its output (all caught by the final `except Exception`)
— peer discovery returns the empty peer dict instead of raising. -/
theorem discovery_failure_returns_empty (my_node_id : String) (err : BatctlError) :
    get_all_peers false my_node_id (Except.error err) = [] :=
  rfl

/-- C9 counterexample: on Windows the mock peer dict is returned without
any self-filtering, so when the local node's id is `aa:aa:aa:aa:aa:aa`
the returned map does contain the local node's own id as a key. -/
theorem windows_mock_contains_own_node_id :
    (get_all_peers true "aa:aa:aa:aa:aa:aa" (Except.ok "")).find?
      (fun p => p.1 == "aa:aa:aa:aa:aa:aa") =
      some ("aa:aa:aa:aa:aa:aa", "169.254.170.170") :=
  rfl

/-- C9 (amended): on the non-Windows discovery path, for every routing
tool outcome and every local node id, the returned peer map never
contains the local node's own id as a key — each parsed originator MAC
equal to the local id is skipped. -/
theorem get_all_peers_excludes_self_non_windows (my_node_id : String)
    (batctl : Except BatctlError String) :
    (get_all_peers false my_node_id batctl).find? (fun p => p.1 == my_node_id) = none := by
  apply List.find?_eq_none.mpr
  intro x hx
  have hkey : x.1 ≠ my_node_id := by
    unfold get_all_peers at hx
    rw [if_neg (by exact Bool.false_ne_true)] at hx
    rcases batctl with err | stdout
    · cases hx
    · dsimp only at hx
      by_cases hempty : (stripChars stdout.data).isEmpty = true
      · rw [if_pos hempty] at hx
        cases hx
      · rw [if_neg hempty] at hx
        exact foldl_processBatctlLine_keys my_node_id _ [] (by intro y hy; cases hy) x hx
  simp only [beq_eq_false_iff_ne, ne_eq]
  exact fun hc => hkey (by simpa using hc)

/-- C5: for every hardware address of six colon-separated hex octets,
the derived IP is the fixed prefix `169.254` followed by the decimal
values of the fifth and sixth octets; the derivation is a pure function
of the address, so two runs on the same input give the same output. -/
theorem mac_to_ip_derivation (mac p0 p1 p2 p3 p4 p5 : List Char) (o3 o4 : Nat)
    (hsplit : splitOnChar ':' mac = [p0, p1, p2, p3, p4, p5])
    (h4 : parseHex p4 = some o3) (h5 : parseHex p5 = some o4) :
    calculate_ip_from_mac mac =
      some (ip_range_base ++ "." ++ toString o3 ++ "." ++ toString o4) ∧
    calculate_ip_from_mac mac = calculate_ip_from_mac mac := by
  constructor
  · unfold calculate_ip_from_mac
    rw [hsplit]
    simp [h4, h5]
  · rfl

/-- C5 witness: the derivation at `aa:bb:cc:dd:11:22` yields exactly
`169.254.17.34` (0x11 = 17, 0x22 = 34). -/
theorem mac_to_ip_derivation_witness :
    splitOnChar ':' "aa:bb:cc:dd:11:22".data =
      ["aa".data, "bb".data, "cc".data, "dd".data, "11".data, "22".data] ∧
    parseHex "11".data = some 17 ∧
    parseHex "22".data = some 34 ∧
    calculate_ip_from_mac "aa:bb:cc:dd:11:22".data = some "169.254.17.34" := by
  refine ⟨by decide, by decide, by decide, ?_⟩
  have h := (mac_to_ip_derivation "aa:bb:cc:dd:11:22".data
    "aa".data "bb".data "cc".data "dd".data "11".data "22".data 17 34
    (by decide) (by decide) (by decide)).1
  exact h.trans (by decide)

/-- C1 counterexample: a cycle over one discovered peer issues exactly
one pull request against it — `since = 0`, no upper bound and no
forward/backward window pair — not the two windowed pulls the claim
states. -/
theorem sync_cycle_issues_one_pull_not_two :
    (sync_with_all_peers [("bb:bb:bb:bb:bb:bb", "169.254.187.187")]
      netSuccessOne 5000 [] []).pulls = [("169.254.187.187", 0)] ∧
    ¬ (sync_with_all_peers [("bb:bb:bb:bb:bb:bb", "169.254.187.187")]
      netSuccessOne 5000 [] []).pulls.length = 2 := by
  constructor
  · decide
  · decide

/-- C1 (amended): in every sync cycle, for each discovered peer the
coordinator issues exactly one pull against that peer, requesting all
records newer than that peer's stored `last_sync_at` watermark (the
request carries only the `since` parameter: there is no window bound and
no second backward pull). -/
theorem sync_cycle_one_unbounded_pull_per_peer
    (peers : List (String × String)) (net : String → Int → NetResponse)
    (now_ms : Int) (log0 : List SyncLogEntry) (db0 : List LocationReport)
    (hnd : (peers.map Prod.fst).Nodup) :
    (sync_with_all_peers peers net now_ms log0 db0).pulls =
      peers.map (fun p => (p.2, get_last_sync_time log0 p.1)) ∧
    (sync_with_all_peers peers net now_ms log0 db0).pulls.length = peers.length := by
  have h1 : (sync_with_all_peers peers net now_ms log0 db0).pulls =
      peers.map (fun p => (p.2, get_last_sync_time log0 p.1)) := by
    unfold sync_with_all_peers
    dsimp only
    rw [loop_pulls net now_ms peers _ hnd]
    dsimp only
    rw [List.nil_append]
    apply List.map_congr_left
    intro p hp
    rw [get_last_init]
  refine ⟨h1, ?_⟩
  rw [h1, List.length_map]

/-- C1 witness: instantiation at one concrete peer. -/
theorem sync_cycle_one_unbounded_pull_per_peer_witness :
    ([("bb:bb:bb:bb:bb:bb", "169.254.187.187")].map Prod.fst).Nodup ∧
    ((sync_with_all_peers [("bb:bb:bb:bb:bb:bb", "169.254.187.187")]
        netSuccessOne 5000 [] []).pulls =
      [("bb:bb:bb:bb:bb:bb", "169.254.187.187")].map
        (fun p => (p.2, get_last_sync_time [] p.1)) ∧
    (sync_with_all_peers [("bb:bb:bb:bb:bb:bb", "169.254.187.187")]
        netSuccessOne 5000 [] []).pulls.length =
      [("bb:bb:bb:bb:bb:bb", "169.254.187.187")].length) :=
  ⟨by decide,
   sync_cycle_one_unbounded_pull_per_peer [("bb:bb:bb:bb:bb:bb", "169.254.187.187")]
     netSuccessOne 5000 [] [] (by decide)⟩

/-- C2 counterexample: a peer's forward pull returns exactly one record
with `created_at = 100`, yet the stored watermark afterwards is the
wall-clock update time `5000`, not the maximum `created_at` of the
returned records. -/
theorem forward_watermark_not_max_created_at :
    get_last_sync_time (sync_with_all_peers [("bb:bb:bb:bb:bb:bb", "169.254.187.187")]
        netSuccessOne 5000 [] []).syncLog "bb:bb:bb:bb:bb:bb" = 5000 ∧
    netSuccessOne "169.254.187.187" 0 = NetResponse.success [testReport] ∧
    testReport.created_at = 100 ∧
    (5000 : Int) ≠ 100 := by
  refine ⟨by decide, rfl, rfl, by decide⟩

/-- C2 (amended): for every peer whose pull returns a success-status
response — whether or not it carries records — the stored watermark
afterwards is the wall-clock time `now_ms` at which the update runs, and
is not derived from the records' `created_at` values; for every peer
whose pull fails, the stored watermark is left unchanged. -/
theorem watermark_set_to_wall_clock_on_success
    (peers : List (String × String)) (net : String → Int → NetResponse)
    (now_ms : Int) (log0 : List SyncLogEntry) (db0 : List LocationReport)
    (mac ip : String)
    (hnd : (peers.map Prod.fst).Nodup) (hmem : (mac, ip) ∈ peers) :
    get_last_sync_time (sync_with_all_peers peers net now_ms log0 db0).syncLog mac =
      if successfulResponse (net ip (get_last_sync_time log0 mac)) then now_ms
      else get_last_sync_time log0 mac := by
  unfold sync_with_all_peers
  dsimp only
  rw [loop_mem net now_ms peers _ mac ip hnd hmem]
  dsimp only
  rw [get_last_init]

/-- C2 witness: instantiation at one concrete peer whose pull succeeds. -/
theorem watermark_set_to_wall_clock_on_success_witness :
    ([("bb:bb:bb:bb:bb:bb", "169.254.187.187")].map Prod.fst).Nodup ∧
    ("bb:bb:bb:bb:bb:bb", "169.254.187.187") ∈
      [("bb:bb:bb:bb:bb:bb", "169.254.187.187")] ∧
    get_last_sync_time (sync_with_all_peers [("bb:bb:bb:bb:bb:bb", "169.254.187.187")]
        netSuccessOne 5000 [] []).syncLog "bb:bb:bb:bb:bb:bb" =
      (if successfulResponse (netSuccessOne "169.254.187.187"
          (get_last_sync_time [] "bb:bb:bb:bb:bb:bb")) then 5000
        else get_last_sync_time [] "bb:bb:bb:bb:bb:bb") :=
  ⟨by decide, by decide,
   watermark_set_to_wall_clock_on_success [("bb:bb:bb:bb:bb:bb", "169.254.187.187")]
     netSuccessOne 5000 [] [] "bb:bb:bb:bb:bb:bb" "169.254.187.187"
     (by decide) (by decide)⟩

/-- C3 counterexample: the first time a peer becomes visible, the cycle
running at wall-clock time `5000` creates its `sync_log` row with
`last_sync_at = 0`, not with the current time (the pull fails here, so
the row keeps its initialization value). -/
theorem first_contact_row_initialized_to_zero_not_now :
    (sync_with_all_peers [("bb:bb:bb:bb:bb:bb", "169.254.187.187")]
        netTimeoutAll 5000 [] []).syncLog =
      [⟨"bb:bb:bb:bb:bb:bb", "169.254.187.187", 0⟩] ∧
    (0 : Int) ≠ 5000 := by
  refine ⟨by decide, by decide⟩

/-- C3 (amended): the first time a peer becomes visible (no `sync_log`
row exists for its node id), the cycle's initialization creates a row
for it with watermark `0` and the peer's current IP; if a row already
exists, its `last_sync_at` is left untouched by this initialization
(only the stored IP may be refreshed). -/
theorem ensure_initialized_creates_zero_row_keeps_existing
    (log0 : List SyncLogEntry) (peers : List (String × String)) (mac ip : String)
    (hnd : (peers.map Prod.fst).Nodup) (hmem : (mac, ip) ∈ peers) :
    (findPeer log0 mac = none →
      findPeer (initializeSyncLogEntries log0 peers) mac = some ⟨mac, ip, 0⟩) ∧
    (∀ e, findPeer log0 mac = some e →
      ∃ e', findPeer (initializeSyncLogEntries log0 peers) mac = some e' ∧
        e'.last_sync_at = e.last_sync_at) :=
  ⟨fun habs => init_creates log0 peers mac ip hnd hmem habs,
   fun e hf => init_keeps log0 peers mac e hf⟩

/-- C3 witness: instantiation at a first-seen concrete peer. -/
theorem ensure_initialized_creates_zero_row_keeps_existing_witness :
    ([("bb:bb:bb:bb:bb:bb", "169.254.187.187")].map Prod.fst).Nodup ∧
    ("bb:bb:bb:bb:bb:bb", "169.254.187.187") ∈
      [("bb:bb:bb:bb:bb:bb", "169.254.187.187")] ∧
    (findPeer [] "bb:bb:bb:bb:bb:bb" = none →
      findPeer (initializeSyncLogEntries [] [("bb:bb:bb:bb:bb:bb", "169.254.187.187")])
        "bb:bb:bb:bb:bb:bb" = some ⟨"bb:bb:bb:bb:bb:bb", "169.254.187.187", 0⟩) :=
  ⟨by decide, by decide,
   (ensure_initialized_creates_zero_row_keeps_existing []
     [("bb:bb:bb:bb:bb:bb", "169.254.187.187")] "bb:bb:bb:bb:bb:bb" "169.254.187.187"
     (by decide) (by decide)).1⟩

/-- C6: saving a report twice through the merge path is idempotent: the
first save inserts it, the second is a no-op counted as skipped (not an
error), exactly one copy is stored, and a subsequent range query returns
the report exactly once. -/
theorem insert_if_absent_idempotent (db : List LocationReport) (r : LocationReport)
    (f : Int) (h0 : reportExists db r.id = false) (hf : f < r.created_at) :
    save_location_reports db [r] = (1, 0, db ++ [r]) ∧
    save_location_reports (db ++ [r]) [r] = (0, 1, db ++ [r]) ∧
    (db ++ [r]).countP (fun x => x.id == r.id) = 1 ∧
    (get_node_data_since (db ++ [r]) r.node_id f).count r = 1 := by
  have hnotmem : r ∉ db := by
    intro hc
    have := List.any_eq_false.mp h0 r hc
    simp at this
  have h1 : save_location_reports db [r] = (1, 0, db ++ [r]) := by
    have := save_fresh db [r]
      (by
        intro x hx
        rw [List.mem_singleton.mp hx]
        exact h0)
      (by simp)
    simpa using this
  have hex : reportExists (db ++ [r]) r.id = true := by
    unfold reportExists
    rw [List.any_append]
    simp
  have h2 : save_location_reports (db ++ [r]) [r] = (0, 1, db ++ [r]) := by
    unfold save_location_reports
    rw [hex]
    rfl
  have h3 : (db ++ [r]).countP (fun x => x.id == r.id) = 1 := by
    rw [List.countP_append]
    have hz : db.countP (fun x => x.id == r.id) = 0 :=
      List.countP_eq_zero.mpr (List.any_eq_false.mp h0)
    rw [hz]
    simp
  have h4 : (get_node_data_since (db ++ [r]) r.node_id f).count r = 1 := by
    unfold get_node_data_since
    rw [(List.mergeSort_perm _ byCreatedAt).count_eq r, List.filter_append,
      List.count_append]
    have hzero : (db.filter (fun x =>
        x.node_id == r.node_id && decide (f < x.created_at))).count r = 0 :=
      List.count_eq_zero.mpr (fun hc => hnotmem (List.mem_of_mem_filter hc))
    rw [hzero]
    simp [hf]
  exact ⟨h1, h2, h3, h4⟩

/-- C6 witness: instantiation at one concrete report and an empty table. -/
theorem insert_if_absent_idempotent_witness :
    reportExists [] testReport.id = false ∧
    (50 : Int) < testReport.created_at ∧
    (save_location_reports [] [testReport] =
      (1, 0, ([] : List LocationReport) ++ [testReport]) ∧
     save_location_reports (([] : List LocationReport) ++ [testReport]) [testReport] =
      (0, 1, ([] : List LocationReport) ++ [testReport]) ∧
     (([] : List LocationReport) ++ [testReport]).countP
      (fun x => x.id == testReport.id) = 1 ∧
     (get_node_data_since (([] : List LocationReport) ++ [testReport])
      testReport.node_id 50).count testReport = 1) :=
  ⟨by decide, by decide,
   insert_if_absent_idempotent [] testReport 50 (by decide) (by decide)⟩

/-- C8: with the serving query's `created_at > since` semantics, for
every window with `from < to`, a forward pull issued at `since = from`
excludes every report whose `created_at` equals `from` and includes
every stored report of the serving node whose `created_at` equals `to`
(`from` exclusive, `to` inclusive). -/
theorem forward_pull_boundary_exactness (db : List LocationReport)
    (my_node_id : String) (f t : Int) (rF rT : LocationReport)
    (hft : f < t) (hF : rF.created_at = f) (hT : rT.created_at = t)
    (hTnode : rT.node_id = my_node_id) (hTmem : rT ∈ db) :
    rF ∉ get_own_data_since db my_node_id f ∧
    rT ∈ get_own_data_since db my_node_id f := by
  have hqT : (fun r : LocationReport =>
      r.node_id == my_node_id && decide (f < r.created_at)) rT = true := by
    simp only [hTnode, hT, beq_self_eq_true, Bool.true_and, decide_eq_true_eq]
    exact hft
  have hmemT : rT ∈ db.filter (fun r =>
      r.node_id == my_node_id && decide (f < r.created_at)) :=
    List.mem_filter.mpr ⟨hTmem, hqT⟩
  have hrows : rT ∈ (db.filter (fun r =>
      r.node_id == my_node_id && decide (f < r.created_at))).mergeSort byCreatedAt :=
    (List.mergeSort_perm _ byCreatedAt).mem_iff.mpr hmemT
  have hnonnil : (db.filter (fun r =>
      r.node_id == my_node_id && decide (f < r.created_at))).mergeSort byCreatedAt ≠ [] :=
    List.ne_nil_of_mem hrows
  unfold get_own_data_since
  dsimp only
  rw [if_neg (fun hc => hnonnil hc.1)]
  constructor
  · intro hc
    have hmemF := (List.mergeSort_perm _ byCreatedAt).mem_iff.mp hc
    have hq := (List.mem_filter.mp hmemF).2
    rw [hF] at hq
    simp at hq
  · exact hrows

/-- C8 witness: a two-report table with reports exactly at the window
edges 50 and 100. -/
theorem forward_pull_boundary_exactness_witness :
    (50 : Int) < 100 ∧
    testReportOld.created_at = 50 ∧
    testReport.created_at = 100 ∧
    testReport.node_id = "bb:bb:bb:bb:bb:bb" ∧
    testReport ∈ [testReportOld, testReport] ∧
    (testReportOld ∉ get_own_data_since [testReportOld, testReport] "bb:bb:bb:bb:bb:bb" 50 ∧
     testReport ∈ get_own_data_since [testReportOld, testReport] "bb:bb:bb:bb:bb:bb" 50) :=
  ⟨by decide, rfl, rfl, rfl, by decide,
   forward_pull_boundary_exactness [testReportOld, testReport] "bb:bb:bb:bb:bb:bb"
     50 100 testReportOld testReport (by decide) rfl rfl rfl (by decide)⟩

/-- C7: with peer A unreachable and peer B returning fresh records in
the same cycle, B's records are saved, B's watermark is updated (to the
cycle's wall-clock time), A's watermark is unchanged, and the cycle
summary records exactly one error; the cycle is a total function — no
exception escapes it. -/
theorem peer_isolation (macA ipA macB ipB dA : String)
    (recs : List LocationReport) (net : String → Int → NetResponse)
    (now_ms : Int) (log0 : List SyncLogEntry) (db0 : List LocationReport)
    (hmac : macA ≠ macB)
    (hA : ∀ t, net ipA t = NetResponse.connectionError dA)
    (hB : ∀ t, net ipB t = NetResponse.success recs)
    (hne : recs ≠ [])
    (hfresh : ∀ r ∈ recs, reportExists db0 r.id = false)
    (hndr : (recs.map (fun r => r.id)).Nodup) :
    (sync_with_all_peers [(macA, ipA), (macB, ipB)] net now_ms log0 db0).db = db0 ++ recs ∧
    get_last_sync_time (sync_with_all_peers [(macA, ipA), (macB, ipB)]
      net now_ms log0 db0).syncLog macB = now_ms ∧
    get_last_sync_time (sync_with_all_peers [(macA, ipA), (macB, ipB)]
      net now_ms log0 db0).syncLog macA = get_last_sync_time log0 macA ∧
    (sync_with_all_peers [(macA, ipA), (macB, ipB)]
      net now_ms log0 db0).results.errors.length = 1 := by
  have hndp : ([(macA, ipA), (macB, ipB)].map Prod.fst).Nodup := by
    simp [hmac]
  have hwB : get_last_sync_time (sync_with_all_peers [(macA, ipA), (macB, ipB)]
      net now_ms log0 db0).syncLog macB = now_ms := by
    unfold sync_with_all_peers
    dsimp only
    rw [loop_mem net now_ms _ _ macB ipB hndp (by simp)]
    rw [hB]
    simp [successfulResponse]
  have hwA : get_last_sync_time (sync_with_all_peers [(macA, ipA), (macB, ipB)]
      net now_ms log0 db0).syncLog macA = get_last_sync_time log0 macA := by
    unfold sync_with_all_peers
    dsimp only
    rw [loop_mem net now_ms _ _ macA ipA hndp (by simp)]
    rw [hA]
    simp [successfulResponse, get_last_init]
  have hfailA : ∀ u, successfulResponse (net ipA u) = false := by
    intro u
    rw [hA u]
    rfl
  obtain ⟨hdbA, herrA⟩ := syncPeerStep_fail net now_ms
    ⟨⟨2, 0, 0, 0, 0, [], []⟩,
      initializeSyncLogEntries log0 [(macA, ipA), (macB, ipB)], db0, []⟩
    (macA, ipA) (hfailA _)
  obtain ⟨hdbB, herrB⟩ := syncPeerStep_succ net now_ms
    (syncPeerStep net now_ms
      ⟨⟨2, 0, 0, 0, 0, [], []⟩,
        initializeSyncLogEntries log0 [(macA, ipA), (macB, ipB)], db0, []⟩
      (macA, ipA))
    (macB, ipB) recs (hB _)
  have hE : recs.isEmpty = false := by
    cases recs with
    | nil => exact absurd rfl hne
    | cons a l => rfl
  have hdb : (sync_with_all_peers [(macA, ipA), (macB, ipB)] net now_ms log0 db0).db =
      db0 ++ recs := by
    show (syncPeerStep net now_ms (syncPeerStep net now_ms
      ⟨⟨2, 0, 0, 0, 0, [], []⟩,
        initializeSyncLogEntries log0 [(macA, ipA), (macB, ipB)], db0, []⟩
      (macA, ipA)) (macB, ipB)).db = db0 ++ recs
    rw [hdbB, hdbA]
    dsimp only
    rw [hE]
    simp only [Bool.false_eq_true, if_false]
    rw [save_fresh db0 recs hfresh hndr]
  have herr : (sync_with_all_peers [(macA, ipA), (macB, ipB)]
      net now_ms log0 db0).results.errors.length = 1 := by
    show (syncPeerStep net now_ms (syncPeerStep net now_ms
      ⟨⟨2, 0, 0, 0, 0, [], []⟩,
        initializeSyncLogEntries log0 [(macA, ipA), (macB, ipB)], db0, []⟩
      (macA, ipA)) (macB, ipB)).results.errors.length = 1
    rw [herrB, herrA]
    simp
  exact ⟨hdb, hwB, hwA, herr⟩

/-- C7 witness: peer `aa...` unreachable, peer `bb...` returning one
fresh record, starting from empty tables. -/
theorem peer_isolation_witness :
    "aa:aa:aa:aa:aa:aa" ≠ "bb:bb:bb:bb:bb:bb" ∧
    ((sync_with_all_peers
        [("aa:aa:aa:aa:aa:aa", "169.254.170.170"),
         ("bb:bb:bb:bb:bb:bb", "169.254.187.187")] netPartial 5000 [] []).db =
      [] ++ [testReport] ∧
    get_last_sync_time (sync_with_all_peers
        [("aa:aa:aa:aa:aa:aa", "169.254.170.170"),
         ("bb:bb:bb:bb:bb:bb", "169.254.187.187")] netPartial 5000 [] []).syncLog
      "bb:bb:bb:bb:bb:bb" = 5000 ∧
    get_last_sync_time (sync_with_all_peers
        [("aa:aa:aa:aa:aa:aa", "169.254.170.170"),
         ("bb:bb:bb:bb:bb:bb", "169.254.187.187")] netPartial 5000 [] []).syncLog
      "aa:aa:aa:aa:aa:aa" = get_last_sync_time [] "aa:aa:aa:aa:aa:aa" ∧
    (sync_with_all_peers
        [("aa:aa:aa:aa:aa:aa", "169.254.170.170"),
         ("bb:bb:bb:bb:bb:bb", "169.254.187.187")] netPartial 5000 [] []).results.errors.length = 1) :=
  ⟨by decide,
   peer_isolation "aa:aa:aa:aa:aa:aa" "169.254.170.170" "bb:bb:bb:bb:bb:bb"
     "169.254.187.187" "No route to host (check mesh network routing)"
     [testReport] netPartial 5000 [] [] (by decide) (fun _ => rfl) (fun _ => rfl)
     (by decide) (by decide) (by decide)⟩

end Nexum
